import Mathlib

/-!
Verification development for the snapshot-builder repository.

Shallow embedding of the two generator variants:
- `src/snapshot-generator.ts`  (class FHIRSnapshotGenerator; called the dash variant below)
- `src/snapshotGenerator.ts`   (class FHIRSnapshotGenerator; called the camel variant below)

Modelling conventions:
- JS strings are Lean `String`.  The ascending string comparison used by the
  lodash `orderBy` final pass (plain relational comparison of strings) is
  modelled by code-unit lexicographic comparison `strLt` on the character
  list; `localeCompare` in the depth comparator is modelled by the same
  code-unit comparison (a standard approximation for the ASCII element
  paths this program handles).
- Possibly-absent JSON fields are `Option`; JS `undefined` is `none`.
  JS `a === b` on possibly-undefined fields is `decide (a = b)`; note that
  `undefined === undefined` is true, exactly as `none = none`.
- JS truthiness of an optional string (`!x` tests) is `truthyStr`:
  both `undefined` and the empty string are falsy.
- The opaque payload fields (`type`, `binding`, `slicing`, `extension`, and
  the descriptive fields) are never inspected by the algorithm, only copied
  wholesale, so they are modelled as uninterpreted `Option String` blobs.
- `Array.prototype.sort` and lodash `orderBy` are stable sorts with respect
  to their comparator; both are modelled by the stable insertion sort
  `sortStable` (stable sorting by a total preorder is unique, so any stable
  implementation agrees with the JS one).
- The base-definition repository (`loadBaseStructureDefinition`, which does
  file IO and absorbs every failure into an empty list) is passed in as a
  pure `lookup : String → List ElementDefinition` parameter, matching the
  BaseDefinitionRepository collaborator of the spec.
- Deep copies (`JSON.parse(JSON.stringify(...))`) are the identity in this
  pure model.
-/

/-- JS truthiness of an optional string: `undefined` and `""` are falsy. -/
def truthyStr : Option String → Bool
  | none => false
  | some s => decide (s ≠ "")

/-- Code-unit lexicographic strict comparison of character lists; model of the
ascending comparison of JS strings. -/
def lexLt : List Char → List Char → Bool
  | [], [] => false
  | [], _ :: _ => true
  | _ :: _, [] => false
  | a :: as, b :: bs => if a = b then lexLt as bs else decide (a < b)

/-- Strict string comparison (code-unit order). -/
def strLt (a b : String) : Bool := lexLt a.data b.data

/-- Splitting a character list at the dot character, as JS `split(".")` does:
the number of produced segments is always the number of dots plus one. -/
def splitSegs : List Char → List (List Char)
  | [] => [[]]
  | c :: cs => match splitSegs cs with
    | [] => [[]]
    | s :: ss => if c = '.' then [] :: s :: ss else (c :: s) :: ss

/-- `path.split('.').length` of the source comparators. -/
def pathDepth (p : String) : Nat := (splitSegs p.data).length

/-- The `base` provenance record of an element
(snapshot-generator.ts lines 14-18). -/
structure ElementBase where
  path : String
  min : Nat
  max : String
deriving DecidableEq, Repr

/-- ElementDefinition (snapshot-generator.ts lines 9-43).  `min` and `max` are
declared required in the TS interface but the code guards them with `??`, so
they are modelled as runtime-optional.  `type`, `slicing`, `binding`,
`extension`, `short` and `definition` stand for the opaque payload fields. -/
structure ElementDefinition where
  id : Option String := none
  path : String
  min : Option Nat := none
  max : Option String := none
  base : Option ElementBase := none
  sliceName : Option String := none
  type : Option String := none
  slicing : Option String := none
  binding : Option String := none
  extension : Option String := none
  short : Option String := none
  definition : Option String := none
deriving DecidableEq, Repr

/-- StructureDefinition envelope (snapshot-generator.ts lines 49-68).
`title` and `description` stand for the optional metadata fields. -/
structure StructureDefinition where
  resourceType : String
  id : String
  url : String
  name : String
  title : Option String := none
  status : String
  description : Option String := none
  baseDefinition : String
  derivation : String
  differential : Option (List ElementDefinition) := none
  snapshot : Option (List ElementDefinition) := none
deriving DecidableEq, Repr

/-- The two errors thrown by the core (spec section 7): the message strings of
the source are modelled as constructors, the second carrying the resource
type name that the thrown message interpolates. -/
inductive GenError where
  | missingDifferential
  | baseDefinitionNotFound (resourceType : String)
deriving DecidableEq, Repr

deriving instance DecidableEq for Except

/-- JS `\w` character class. -/
def isWordChar (c : Char) : Bool := c.isAlphanum || c = '_'

/-- Whether the character list `l` ends with the character list `post`. -/
def listEndsWith (l post : List Char) : Bool :=
  decide (l.reverse.take post.length = post.reverse)

/-- `extractResourceType` (snapshot-generator.ts lines 132-135): match of the
regex `StructureDefinition\/(\w+)$`.  The regex matches precisely when the
maximal word-character suffix `w` of the input is nonempty and the part
before `w` ends with the literal `StructureDefinition/`; the captured group
is then `w`.  On no match the fallback is `DomainResource`. -/
def extractResourceType (baseDefinition : String) : String :=
  let cs := baseDefinition.data
  let w := (cs.reverse.takeWhile isWordChar).reverse
  let before := cs.take (cs.length - w.length)
  if !w.isEmpty && listEndsWith before "StructureDefinition/".data then
    String.mk w
  else
    "DomainResource"

/-- Overwrite-when-present: the value of field `f` after merging, where the
key is present on the differential object exactly when the value is not
`none`. -/
def overwrite {β : Type} (dv bv : Option β) : Option β :=
  match dv with
  | some v => some v
  | none => bv

/-- `mergeElementDefinition` (snapshot-generator.ts lines 230-253,
snapshotGenerator.ts lines 184-207; the two files are identical here).  The
source iterates `Object.keys(diffElement)` with special branches for
`id`/`path` (always taken from the differential) and for
`type`/`binding`/`slicing`/`extension` (wholesale replacement when truthy;
when present but falsy they fall through to the generic branch), and a
generic branch overwriting with every other defined value.  For this schema
every branch amounts to: a field present on the differential overwrites the
base field, and `path` (always present) is always taken from the
differential. -/
def mergeElementDefinition (b d : ElementDefinition) : ElementDefinition :=
  { id := overwrite d.id b.id
    path := d.path
    min := overwrite d.min b.min
    max := overwrite d.max b.max
    base := overwrite d.base b.base
    sliceName := overwrite d.sliceName b.sliceName
    type := overwrite d.type b.type
    slicing := overwrite d.slicing b.slicing
    binding := overwrite d.binding b.binding
    extension := overwrite d.extension b.extension
    short := overwrite d.short b.short
    definition := overwrite d.definition b.definition }

/-- The new-element synthesis of the no-match branch (snapshot-generator.ts
lines 178-191): deep-copy the differential element and, when `base` is
absent (`!newElement.base`; an object is always truthy), set
`base = {path, min: min ?? 0, max: max ?? "*"}`. -/
def synthesizeElement (d : ElementDefinition) : ElementDefinition :=
  if d.base.isSome then d
  else { d with base := some ⟨d.path, d.min.getD 0, d.max.getD "*"⟩ }

/-- The first find predicate (snapshot-generator.ts line 169):
`el.id === diffElement.id`.  Note the source compares even when the
differential has no id, and `undefined === undefined` is true. -/
def idMatch (d el : ElementDefinition) : Bool := decide (el.id = d.id)

/-- The second find predicate (snapshot-generator.ts line 172):
`el.path === path && !diffElement.sliceName`. -/
def pathMatch (d el : ElementDefinition) : Bool :=
  decide (el.path = d.path) && !truthyStr d.sliceName

/-- Replace the first element satisfying `p` by its image under `f`;
`none` when no element matches.  This models the in-place mutation of the
element returned by `Array.prototype.find`. -/
def updateFirst {α : Type} (p : α → Bool) (f : α → α) : List α → Option (List α)
  | [] => none
  | x :: xs => if p x then some (f x :: xs) else (updateFirst p f xs).map (x :: ·)

/-- One iteration of the differential loop (snapshot-generator.ts lines
164-194, snapshotGenerator.ts lines 129-158; identical in the two files):
find by id, else find by path (guarded by the absence of a sliceName on the
differential element), merge into the found element, else append a
synthesized element.  The `elementMap` of the source is write-only (it is
never read), so it has no effect on the result and is omitted. -/
def applyDiff (ws : List ElementDefinition) (d : ElementDefinition) :
    List ElementDefinition :=
  match updateFirst (idMatch d) (fun el => mergeElementDefinition el d) ws with
  | some ws2 => ws2
  | none =>
    match updateFirst (pathMatch d) (fun el => mergeElementDefinition el d) ws with
    | some ws2 => ws2
    | none => ws ++ [synthesizeElement d]

/-- Stable insertion: `x` goes after exactly the prefix of elements strictly
below it, hence before any element tied with it — the behaviour of the
stable JS sorts for elements comparing equal. -/
def insertSorted {α : Type} (lt : α → α → Bool) (x : α) : List α → List α
  | [] => [x]
  | y :: ys => if lt y x then y :: insertSorted lt x ys else x :: y :: ys

/-- Stable sort by a strict comparator; models `Array.prototype.sort` and
lodash `orderBy`, both stable. -/
def sortStable {α : Type} (lt : α → α → Bool) : List α → List α
  | [] => []
  | x :: xs => insertSorted lt x (sortStable lt xs)

/-- The comparator of both files (snapshot-generator.ts lines 197-207,
snapshotGenerator.ts lines 161-168): path depth ascending, ties by the
string comparison of the full path. -/
def depthPathLt (a b : ElementDefinition) : Bool :=
  decide (pathDepth a.path < pathDepth b.path) ||
    (decide (pathDepth a.path = pathDepth b.path) && strLt a.path b.path)

/-- The lodash `orderBy(snapshotElements, ['path'], ['asc'])` key comparison
(snapshot-generator.ts line 209): plain ascending comparison of `path`. -/
def pathLt (a b : ElementDefinition) : Bool := strLt a.path b.path

/-- `getBaseElements` (snapshot-generator.ts lines 108-125, snapshotGenerator.ts
lines 84-100): fetch the already-snapshotted base elements through the
repository (which absorbs its own failures into `[]`), succeed exactly when
the list is nonempty and its first path equals the resource type name, and
otherwise throw the not-found error naming the resource type. -/
def getBaseElements (lookup : String → List ElementDefinition)
    (resourceType : String) : Except GenError (List ElementDefinition) :=
  let res := lookup resourceType
  match res with
  | [] => .error (.baseDefinitionNotFound resourceType)
  | b :: _ =>
    if b.path = resourceType then .ok res
    else .error (.baseDefinitionNotFound resourceType)

/-- `generateSnapshot` of snapshot-generator.ts (lines 143-223), the dash
variant, instrumented with the list of arguments of the repository-lookup
calls it performs (the second component).  The working list is seeded with
the base elements, every differential element is applied in input order,
the list is sorted by the depth-then-path comparator, and the result of
that sort is re-sorted by `orderBy(..., ['path'], ['asc'])` (line 209)
before being attached as the snapshot of a shallow copy of the input
document whose `differential` field is deleted. -/
def generateSnapshotDashT (lookup : String → List ElementDefinition)
    (doc : StructureDefinition) :
    Except GenError StructureDefinition × List String :=
  match doc.differential with
  | none => (.error .missingDifferential, [])
  | some diffs =>
    let resourceType := extractResourceType doc.baseDefinition
    match getBaseElements lookup resourceType with
    | .error e => (.error e, [resourceType])
    | .ok baseElements =>
      let ws := diffs.foldl applyDiff baseElements
      let sorted := sortStable depthPathLt ws
      let elements := sortStable pathLt sorted
      (.ok { doc with snapshot := some elements, differential := none },
        [resourceType])

/-- `generateSnapshot` of snapshot-generator.ts: the returned value. -/
def generateSnapshotDash (lookup : String → List ElementDefinition)
    (doc : StructureDefinition) : Except GenError StructureDefinition :=
  (generateSnapshotDashT lookup doc).1

/-- `generateSnapshot` of snapshotGenerator.ts (lines 109-182), the camel
variant: identical to the dash variant except that there is no final
`orderBy` pass — the snapshot keeps the depth-then-path order. -/
def generateSnapshotCamel (lookup : String → List ElementDefinition)
    (doc : StructureDefinition) : Except GenError StructureDefinition :=
  match doc.differential with
  | none => .error .missingDifferential
  | some diffs =>
    let resourceType := extractResourceType doc.baseDefinition
    match getBaseElements lookup resourceType with
    | .error e => .error e
    | .ok baseElements =>
      let ws := diffs.foldl applyDiff baseElements
      .ok { doc with snapshot := some (sortStable depthPathLt ws), differential := none }

/-- The element paths of a generated snapshot, for readable statements. -/
def snapPaths (r : Except GenError StructureDefinition) : List String :=
  match r with
  | .ok d => (d.snapshot.getD []).map (fun e => e.path)
  | .error _ => []

/-- Re-sort the snapshot of a successful result by the plain path order. -/
def resortByPath (r : Except GenError StructureDefinition) :
    Except GenError StructureDefinition :=
  match r with
  | .error e => .error e
  | .ok d => .ok { d with snapshot := d.snapshot.map (sortStable pathLt) }

/-! Concrete fixtures, modelled on the repository test data. -/

/-- Base root element of the Patient fixtures. -/
def basePatientEl : ElementDefinition :=
  { id := some "Patient", path := "Patient", min := some 0, max := some "*" }

/-- Base `Patient.name` element of the fixtures. -/
def basePatientNameEl : ElementDefinition :=
  { id := some "Patient.name", path := "Patient.name",
    min := some 0, max := some "*" }

/-- Repository fixture holding a two-element Patient base. -/
def lookupPatient : String → List ElementDefinition :=
  fun rt => if rt = "Patient" then [basePatientEl, basePatientNameEl] else []

/-- Repository fixture that has nothing. -/
def lookupEmpty : String → List ElementDefinition := fun _ => []

/-- A depth-3 differential element whose path sorts lexicographically before
`Patient.name`. -/
def deepDiffEl : ElementDefinition :=
  { path := "Patient.a.b", min := some 0, max := some "1" }

/-- Differential document carrying only `deepDiffEl`. -/
def docDeep : StructureDefinition :=
  { resourceType := "StructureDefinition", id := "test-patient",
    url := "http://example.org/StructureDefinition/test-patient",
    name := "TestPatient", status := "active",
    baseDefinition := "http://hl7.org/fhir/StructureDefinition/Patient",
    derivation := "constraint", differential := some [deepDiffEl] }

/-- `docDeep` without any differential. -/
def docNoDiff : StructureDefinition := { docDeep with differential := none }

/-- Differential document carrying a single depth-1 element `Aaa`. -/
def docAaa : StructureDefinition :=
  { docDeep with differential := some [{ path := "Aaa", min := some 0, max := some "1" }] }

/-- The synthesized form of `deepDiffEl`. -/
def deepSynthEl : ElementDefinition :=
  { path := "Patient.a.b", min := some 0, max := some "1",
    base := some ⟨"Patient.a.b", 0, "1"⟩ }

/-- The full dash-variant output document for `docDeep` over `lookupPatient`. -/
def dashResultDeep : StructureDefinition :=
  { docDeep with differential := none, snapshot := some [basePatientEl, deepSynthEl, basePatientNameEl] }

/-- A base root element carrying no id, as in the repository test mocks for
`loadBaseStructureDefinition`. -/
def rootNoIdEl : ElementDefinition :=
  { path := "Patient", min := some 0, max := some "*" }

/-- A differential element with no id and a path absent from the base. -/
def diffNoIdEl : ElementDefinition :=
  { path := "Patient.name", min := some 1, max := some "1" }

/-- A sliced differential element whose id equals the id of the non-sliced
base element of the same path. -/
def slicedDiffSameIdEl : ElementDefinition :=
  { id := some "Patient.name", path := "Patient.name",
    sliceName := some "official", min := some 1, max := some "1" }

/-- A sliced differential element whose id matches nothing in the base. -/
def slicedDiffFreshIdEl : ElementDefinition :=
  { id := some "Patient.name:official", path := "Patient.name",
    sliceName := some "official", min := some 1, max := some "1" }

/-! Lemmas about the string comparison. -/

theorem lexLt_irrefl : ∀ as : List Char, lexLt as as = false
  | [] => rfl
  | a :: as => by simp [lexLt, lexLt_irrefl as]

theorem lexLt_asymm : ∀ as bs : List Char,
    lexLt as bs = true → lexLt bs as = false
  | [], [] => by simp [lexLt]
  | [], _ :: _ => by intro _; simp [lexLt]
  | _ :: _, [] => by simp [lexLt]
  | a :: as, b :: bs => by
    simp only [lexLt]
    by_cases hab : a = b
    · subst hab
      simp only [if_pos rfl]
      exact lexLt_asymm as bs
    · have hba : ¬ b = a := fun e => hab e.symm
      rw [if_neg hab, if_neg hba]
      intro h
      have h1 : a < b := of_decide_eq_true h
      simpa using not_lt_of_lt h1

theorem lexLt_negtrans : ∀ as bs cs : List Char,
    lexLt bs as = false → lexLt cs bs = false → lexLt cs as = false
  | [], _, cs => by
    intro _ _
    cases cs with
    | nil => rfl
    | cons c cs2 => rfl
  | _ :: _, [], _ => by intro h1 _; simp [lexLt] at h1
  | a :: as, b :: bs, [] => by intro _ h2; simp [lexLt] at h2
  | a :: as, b :: bs, c :: cs => by
    simp only [lexLt]
    intro h1 h2
    by_cases hba : b = a
    · subst hba
      rw [if_pos rfl] at h1
      by_cases hcb : c = b
      · subst hcb
        rw [if_pos rfl] at h2 ⊢
        exact lexLt_negtrans as bs cs h1 h2
      · rw [if_neg hcb] at h2 ⊢
        exact h2
    · rw [if_neg hba] at h1
      have hab : ¬ (b < a) := by simpa using of_decide_eq_false h1
      by_cases hcb : c = b
      · subst hcb
        rw [if_neg hba]
        exact h1
      · rw [if_neg hcb] at h2
        have hbc : ¬ (c < b) := by simpa using of_decide_eq_false h2
        have hac : ¬ (c < a) := fun hca => hbc (lt_of_lt_of_le hca (le_of_not_lt hab))
        by_cases hca : c = a
        · subst hca
          rw [if_pos rfl]
          have : b = c := le_antisymm (le_of_not_lt hbc) (le_of_not_lt hab)
          exact absurd this.symm hcb
        · rw [if_neg hca]
          simpa using hac

theorem lexLt_connex : ∀ as bs : List Char,
    lexLt as bs = false → lexLt bs as = false → as = bs
  | [], [] => by intro _ _; rfl
  | [], _ :: _ => by intro h1 _; simp [lexLt] at h1
  | _ :: _, [] => by intro _ h2; simp [lexLt] at h2
  | a :: as, b :: bs => by
    simp only [lexLt]
    intro h1 h2
    by_cases hab : a = b
    · subst hab
      rw [if_pos rfl] at h1 h2
      rw [lexLt_connex as bs h1 h2]
    · have hba : ¬ b = a := fun e => hab e.symm
      rw [if_neg hab] at h1
      rw [if_neg hba] at h2
      have n1 : ¬ (a < b) := by simpa using of_decide_eq_false h1
      have n2 : ¬ (b < a) := by simpa using of_decide_eq_false h2
      exact absurd (le_antisymm (le_of_not_lt n2) (le_of_not_lt n1)) hab

theorem str_eq_of_data : ∀ {a b : String}, a.data = b.data → a = b
  | ⟨_⟩, ⟨_⟩, h => congrArg String.mk h

theorem strLt_irrefl (a : String) : strLt a a = false := lexLt_irrefl a.data

theorem strLt_asymm {a b : String} (h : strLt a b = true) : strLt b a = false :=
  lexLt_asymm a.data b.data h

theorem strLt_negtrans {a b c : String} (h1 : strLt b a = false)
    (h2 : strLt c b = false) : strLt c a = false :=
  lexLt_negtrans a.data b.data c.data h1 h2

theorem strLt_connex {a b : String} (h1 : strLt a b = false)
    (h2 : strLt b a = false) : a = b :=
  str_eq_of_data (lexLt_connex a.data b.data h1 h2)

/-! Lemmas about the stable sort. -/

theorem mem_insertSorted {α : Type} (lt : α → α → Bool) (x a : α) :
    ∀ l : List α, a ∈ insertSorted lt x l ↔ a = x ∨ a ∈ l
  | [] => by simp [insertSorted]
  | y :: ys => by
    simp only [insertSorted]
    split
    · rw [List.mem_cons, mem_insertSorted lt x a ys, List.mem_cons]
      tauto
    · rw [List.mem_cons, List.mem_cons]

theorem mem_sortStable {α : Type} (lt : α → α → Bool) (a : α) :
    ∀ l : List α, a ∈ sortStable lt l ↔ a ∈ l
  | [] => by simp [sortStable]
  | x :: xs => by
    simp only [sortStable, mem_insertSorted, mem_sortStable lt a xs, List.mem_cons]

theorem pairwise_insertSorted {α : Type} (lt : α → α → Bool)
    (hasymm : ∀ a b, lt a b = true → lt b a = false)
    (htrans : ∀ a b c, lt b a = false → lt c b = false → lt c a = false)
    (x : α) :
    ∀ l : List α, l.Pairwise (fun a b => lt b a = false) →
      (insertSorted lt x l).Pairwise (fun a b => lt b a = false)
  | [], _ => by simp [insertSorted]
  | y :: ys, hl => by
    rw [List.pairwise_cons] at hl
    simp only [insertSorted]
    split
    · rename_i hyx
      rw [List.pairwise_cons]
      constructor
      · intro z hz
        rcases (mem_insertSorted lt x z ys).mp hz with hzx | hzy
        · rw [hzx]
          exact hasymm y x hyx
        · exact hl.1 z hzy
      · exact pairwise_insertSorted lt hasymm htrans x ys hl.2
    · rename_i hyx
      have hyx' : lt y x = false := by
        revert hyx
        cases lt y x <;> simp
      rw [List.pairwise_cons]
      constructor
      · intro z hz
        rcases List.mem_cons.mp hz with hzy | hzys
        · subst hzy
          exact hyx'
        · exact htrans x y z hyx' (hl.1 z hzys)
      · rw [List.pairwise_cons]
        exact ⟨hl.1, hl.2⟩

theorem pairwise_sortStable {α : Type} (lt : α → α → Bool)
    (hasymm : ∀ a b, lt a b = true → lt b a = false)
    (htrans : ∀ a b c, lt b a = false → lt c b = false → lt c a = false) :
    ∀ l : List α, (sortStable lt l).Pairwise (fun a b => lt b a = false)
  | [] => by simp [sortStable]
  | x :: xs => by
    simp only [sortStable]
    exact pairwise_insertSorted lt hasymm htrans x _
      (pairwise_sortStable lt hasymm htrans xs)

theorem sortStable_head_bound {α : Type} (lt : α → α → Bool)
    (hasymm : ∀ a b, lt a b = true → lt b a = false)
    (htrans : ∀ a b c, lt b a = false → lt c b = false → lt c a = false)
    (l : List α) (m : α) (tl : List α) (h : sortStable lt l = m :: tl) :
    ∀ x ∈ l, lt x m = false := by
  intro x hx
  have hx2 : x ∈ m :: tl := h ▸ (mem_sortStable lt x l).mpr hx
  rcases List.mem_cons.mp hx2 with hxm | hxtl
  · subst hxm
    cases hmm : lt x x with
    | false => rfl
    | true => exact absurd (hasymm x x hmm) (by simp [hmm])
  · have hp := pairwise_sortStable lt hasymm htrans l
    rw [h, List.pairwise_cons] at hp
    exact hp.1 x hxtl

/-! Lemmas about updateFirst and applyDiff. -/

theorem updateFirst_mem {α : Type} (p : α → Bool) (f : α → α) :
    ∀ (l l2 : List α), updateFirst p f l = some l2 →
      ∀ x ∈ l2, x ∈ l ∨ ∃ y ∈ l, x = f y
  | [], _, h => by simp [updateFirst] at h
  | z :: zs, l2, h => by
    simp only [updateFirst] at h
    split at h
    · cases h
      intro x hx
      rcases List.mem_cons.mp hx with hxz | hxzs
      · exact Or.inr ⟨z, List.mem_cons_self z zs, hxz⟩
      · exact Or.inl (List.mem_cons_of_mem z hxzs)
    · rcases Option.map_eq_some'.mp h with ⟨zs2, hzs2, rfl⟩
      intro x hx
      rcases List.mem_cons.mp hx with hxz | hxzs2
      · exact Or.inl (hxz ▸ List.mem_cons_self z zs)
      · rcases updateFirst_mem p f zs zs2 hzs2 x hxzs2 with hm | ⟨y, hy, hxy⟩
        · exact Or.inl (List.mem_cons_of_mem z hm)
        · exact Or.inr ⟨y, List.mem_cons_of_mem z hy, hxy⟩

theorem updateFirst_eq_none {α : Type} (p : α → Bool) (f : α → α) :
    ∀ l : List α, (∀ x ∈ l, p x = false) → updateFirst p f l = none
  | [], _ => rfl
  | z :: zs, h => by
    simp only [updateFirst]
    rw [h z (List.mem_cons_self z zs)]
    simp only [Bool.false_eq_true, if_false]
    rw [updateFirst_eq_none p f zs (fun x hx => h x (List.mem_cons_of_mem z hx))]
    rfl

theorem updateFirst_eq_none_of_find? {α : Type} (p : α → Bool) (f : α → α)
    (l : List α) (h : l.find? p = none) : updateFirst p f l = none :=
  updateFirst_eq_none p f l (by simpa using List.find?_eq_none.mp h)

theorem mergeElementDefinition_path (b d : ElementDefinition) :
    (mergeElementDefinition b d).path = d.path := rfl

theorem synthesizeElement_path (d : ElementDefinition) :
    (synthesizeElement d).path = d.path := by
  unfold synthesizeElement
  split <;> rfl

theorem applyDiff_path_bound (P : String → Prop)
    (ws : List ElementDefinition) (d : ElementDefinition)
    (hws : ∀ e ∈ ws, P e.path) (hd : P d.path) :
    ∀ e ∈ applyDiff ws d, P e.path := by
  unfold applyDiff
  split
  · rename_i ws2 h1
    intro e he
    rcases updateFirst_mem _ _ ws ws2 h1 e he with hm | ⟨y, _, rfl⟩
    · exact hws e hm
    · exact mergeElementDefinition_path y d ▸ hd
  · split
    · rename_i ws2 h2
      intro e he
      rcases updateFirst_mem _ _ ws ws2 h2 e he with hm | ⟨y, _, rfl⟩
      · exact hws e hm
      · exact mergeElementDefinition_path y d ▸ hd
    · intro e he
      rcases List.mem_append.mp he with hm | hs
      · exact hws e hm
      · rw [List.mem_singleton.mp hs]
        exact synthesizeElement_path d ▸ hd

theorem foldl_applyDiff_path_bound (P : String → Prop) :
    ∀ (ds : List ElementDefinition) (ws : List ElementDefinition),
      (∀ e ∈ ws, P e.path) → (∀ d ∈ ds, P d.path) →
      ∀ e ∈ ds.foldl applyDiff ws, P e.path
  | [], ws, hws, _ => by simpa using hws
  | d :: ds, ws, hws, hds => by
    simp only [List.foldl_cons]
    exact foldl_applyDiff_path_bound P ds (applyDiff ws d)
      (applyDiff_path_bound P ws d hws (hds d (List.mem_cons_self d ds)))
      (fun x hx => hds x (List.mem_cons_of_mem d hx))

/-! Shape lemmas for the generator pipelines. -/

theorem generateSnapshotDash_ok (lookup : String → List ElementDefinition)
    (doc : StructureDefinition) (diffs : List ElementDefinition)
    (b : ElementDefinition) (bs : List ElementDefinition)
    (hdiff : doc.differential = some diffs)
    (hlk : lookup (extractResourceType doc.baseDefinition) = b :: bs)
    (hb : b.path = extractResourceType doc.baseDefinition) :
    generateSnapshotDash lookup doc =
      .ok { doc with snapshot := some (sortStable pathLt (sortStable depthPathLt (diffs.foldl applyDiff (b :: bs)))), differential := none } := by
  unfold generateSnapshotDash generateSnapshotDashT getBaseElements
  rw [hdiff]
  simp [hlk, hb]

theorem generateSnapshotDash_err_nil (lookup : String → List ElementDefinition)
    (doc : StructureDefinition) (diffs : List ElementDefinition)
    (hdiff : doc.differential = some diffs)
    (hlk : lookup (extractResourceType doc.baseDefinition) = []) :
    generateSnapshotDash lookup doc =
      .error (.baseDefinitionNotFound (extractResourceType doc.baseDefinition)) := by
  unfold generateSnapshotDash generateSnapshotDashT getBaseElements
  rw [hdiff]
  simp [hlk]

theorem generateSnapshotDash_err_path (lookup : String → List ElementDefinition)
    (doc : StructureDefinition) (diffs : List ElementDefinition)
    (b : ElementDefinition) (bs : List ElementDefinition)
    (hdiff : doc.differential = some diffs)
    (hlk : lookup (extractResourceType doc.baseDefinition) = b :: bs)
    (hb : ¬ b.path = extractResourceType doc.baseDefinition) :
    generateSnapshotDash lookup doc =
      .error (.baseDefinitionNotFound (extractResourceType doc.baseDefinition)) := by
  unfold generateSnapshotDash generateSnapshotDashT getBaseElements
  rw [hdiff]
  simp [hlk, hb]

theorem generateSnapshotCamel_none (lookup : String → List ElementDefinition)
    (doc : StructureDefinition) (hdiff : doc.differential = none) :
    generateSnapshotCamel lookup doc = .error .missingDifferential := by
  unfold generateSnapshotCamel
  rw [hdiff]

theorem generateSnapshotCamel_ok (lookup : String → List ElementDefinition)
    (doc : StructureDefinition) (diffs : List ElementDefinition)
    (b : ElementDefinition) (bs : List ElementDefinition)
    (hdiff : doc.differential = some diffs)
    (hlk : lookup (extractResourceType doc.baseDefinition) = b :: bs)
    (hb : b.path = extractResourceType doc.baseDefinition) :
    generateSnapshotCamel lookup doc =
      .ok { doc with snapshot := some (sortStable depthPathLt (diffs.foldl applyDiff (b :: bs))), differential := none } := by
  unfold generateSnapshotCamel getBaseElements
  rw [hdiff]
  simp [hlk, hb]

theorem generateSnapshotCamel_err_nil (lookup : String → List ElementDefinition)
    (doc : StructureDefinition) (diffs : List ElementDefinition)
    (hdiff : doc.differential = some diffs)
    (hlk : lookup (extractResourceType doc.baseDefinition) = []) :
    generateSnapshotCamel lookup doc =
      .error (.baseDefinitionNotFound (extractResourceType doc.baseDefinition)) := by
  unfold generateSnapshotCamel getBaseElements
  rw [hdiff]
  simp [hlk]

theorem generateSnapshotCamel_err_path (lookup : String → List ElementDefinition)
    (doc : StructureDefinition) (diffs : List ElementDefinition)
    (b : ElementDefinition) (bs : List ElementDefinition)
    (hdiff : doc.differential = some diffs)
    (hlk : lookup (extractResourceType doc.baseDefinition) = b :: bs)
    (hb : ¬ b.path = extractResourceType doc.baseDefinition) :
    generateSnapshotCamel lookup doc =
      .error (.baseDefinitionNotFound (extractResourceType doc.baseDefinition)) := by
  unfold generateSnapshotCamel getBaseElements
  rw [hdiff]
  simp [hlk, hb]

/-! Claim theorems. -/

/-- C1: the claim states that the element list of the returned snapshot is
ordered by the two-key comparator, path depth ascending with lexicographic
ties.  The dash variant violates this: its final lodash `orderBy` pass
(snapshot-generator.ts line 209) re-sorts the carefully depth-sorted list
purely by path, contradicting the comment and the comparator of lines
196-207 and placing the depth-3 path `Patient.a.b` before the depth-2 path
`Patient.name`.  The camel variant, which has no such pass, produces the
claimed order on the same input.  This theorem evaluates both variants at
the failing input. -/
theorem c1_sort_order_eval :
    snapPaths (generateSnapshotDash lookupPatient docDeep) = ["Patient", "Patient.a.b", "Patient.name"] ∧
    snapPaths (generateSnapshotCamel lookupPatient docDeep) = ["Patient", "Patient.name", "Patient.a.b"] ∧
    pathDepth "Patient.a.b" = 3 ∧ pathDepth "Patient.name" = 2 := by decide

/-- C2: the claim states that the id-rule search is only attempted when the
differential element has an id.  The code runs
`find(el => el.id === elementId)` unconditionally, and since
`undefined === undefined` holds, an id-less differential element is matched
by the id rule to the first id-less working-list element — here the root,
whose path the subsequent merge overwrites.  This theorem evaluates the
embedded search and merge at that failing input. -/
theorem c2_id_rule_eval :
    diffNoIdEl.id = none ∧
    [rootNoIdEl].find? (idMatch diffNoIdEl) = some rootNoIdEl ∧
    applyDiff [rootNoIdEl] diffNoIdEl = [mergeElementDefinition rootNoIdEl diffNoIdEl] ∧
    (applyDiff [rootNoIdEl] diffNoIdEl).map (fun e => e.path) = ["Patient.name"] := by decide

/-- C3 counterexample: a differential element with `sliceName` set, whose
path equals the path of the existing non-sliced base element and whose id
also equals the id of that element, is matched by the id rule and merged in
place — it is not synthesized and appended as the claim states. -/
theorem c3_counterexample :
    truthyStr slicedDiffSameIdEl.sliceName = true ∧
    basePatientNameEl.sliceName = none ∧
    slicedDiffSameIdEl.path = basePatientNameEl.path ∧
    applyDiff [basePatientNameEl] slicedDiffSameIdEl = [mergeElementDefinition basePatientNameEl slicedDiffSameIdEl] ∧
    ¬ applyDiff [basePatientNameEl] slicedDiffSameIdEl = [basePatientNameEl] ++ [synthesizeElement slicedDiffSameIdEl] := by decide

/-- C3 amended: a differential element with `sliceName` set and a path equal
to the path of an existing non-sliced element is always synthesized as a
new appended element, provided the id rule (rule 1) finds no match for it
in the working list; the path rule cannot match it because of the
sliceName guard. -/
theorem c3_slice_synthesized (ws : List ElementDefinition)
    (d : ElementDefinition)
    (hslice : truthyStr d.sliceName = true)
    (hid : ws.find? (idMatch d) = none)
    (_hpath : ∃ e ∈ ws, e.path = d.path ∧ e.sliceName = none) :
    applyDiff ws d = ws ++ [synthesizeElement d] := by
  unfold applyDiff
  rw [updateFirst_eq_none_of_find? _ _ ws hid]
  rw [updateFirst_eq_none (pathMatch d) _ ws (fun x _ => by simp [pathMatch, hslice])]

/-- C3 witness: a sliced differential element whose id matches nothing. -/
theorem c3_slice_synthesized_witness :
    truthyStr slicedDiffFreshIdEl.sliceName = true ∧
    [basePatientNameEl].find? (idMatch slicedDiffFreshIdEl) = none ∧
    applyDiff [basePatientNameEl] slicedDiffFreshIdEl = [basePatientNameEl] ++ [synthesizeElement slicedDiffFreshIdEl] :=
  ⟨by decide, by decide,
    c3_slice_synthesized [basePatientNameEl] slicedDiffFreshIdEl (by decide) (by decide)
      ⟨basePatientNameEl, by decide, by decide, by decide⟩⟩

/-- C4 counterexample: a valid differential document over an existing
Patient base whose differential synthesizes the depth-1 path `Aaa`; the
first element of the returned snapshot has path `Aaa`, not the extracted
resource type name `Patient`. -/
theorem c4_counterexample :
    extractResourceType docAaa.baseDefinition = "Patient" ∧
    snapPaths (generateSnapshotDash lookupPatient docAaa) = ["Aaa", "Patient", "Patient.name"] ∧
    ("Aaa" : String) ≠ "Patient" := by decide

/-- C4 amended: the first element of the returned snapshot has the extracted
resource type name as its path, provided additionally that the resource
type name is a lexicographic lower bound of every base element path and
every differential element path, and that the working list after the merge
pass still contains an element whose path equals the resource type name
(the merge pass can lose it by rewriting the root path on an id match, and
a differential path sorting below the resource type can take the first
position otherwise). -/
theorem c4_first_element_path (lookup : String → List ElementDefinition)
    (doc : StructureDefinition) (diffs : List ElementDefinition)
    (b : ElementDefinition) (bs : List ElementDefinition)
    (hdiff : doc.differential = some diffs)
    (hlk : lookup (extractResourceType doc.baseDefinition) = b :: bs)
    (hb : b.path = extractResourceType doc.baseDefinition)
    (hbase : ∀ e ∈ b :: bs, strLt e.path (extractResourceType doc.baseDefinition) = false)
    (hds : ∀ d ∈ diffs, strLt d.path (extractResourceType doc.baseDefinition) = false)
    (hsurv : ∃ e ∈ diffs.foldl applyDiff (b :: bs), e.path = extractResourceType doc.baseDefinition) :
    ∃ r m tl, generateSnapshotDash lookup doc = .ok r ∧
      r.snapshot = some (m :: tl) ∧
      m.path = extractResourceType doc.baseDefinition := by
  have hlow : ∀ e ∈ diffs.foldl applyDiff (b :: bs),
      strLt e.path (extractResourceType doc.baseDefinition) = false :=
    foldl_applyDiff_path_bound
      (fun s => strLt s (extractResourceType doc.baseDefinition) = false)
      diffs (b :: bs) hbase hds
  obtain ⟨e0, he0, he0p⟩ := hsurv
  have he0f : e0 ∈ sortStable pathLt (sortStable depthPathLt (diffs.foldl applyDiff (b :: bs))) := by
    rw [mem_sortStable, mem_sortStable]
    exact he0
  obtain ⟨m, tl, hcons⟩ : ∃ m tl,
      sortStable pathLt (sortStable depthPathLt (diffs.foldl applyDiff (b :: bs))) = m :: tl := by
    cases hf : sortStable pathLt (sortStable depthPathLt (diffs.foldl applyDiff (b :: bs))) with
    | nil => rw [hf] at he0f; simp at he0f
    | cons m tl => exact ⟨m, tl, rfl⟩
  have hasymmP : ∀ a b2 : ElementDefinition, pathLt a b2 = true → pathLt b2 a = false :=
    fun _ _ h => strLt_asymm h
  have htransP : ∀ a b2 c : ElementDefinition,
      pathLt b2 a = false → pathLt c b2 = false → pathLt c a = false :=
    fun _ _ _ h1 h2 => strLt_negtrans h1 h2
  have hmin : ∀ x ∈ sortStable depthPathLt (diffs.foldl applyDiff (b :: bs)), pathLt x m = false :=
    sortStable_head_bound pathLt hasymmP htransP _ m tl hcons
  have h1 : strLt (extractResourceType doc.baseDefinition) m.path = false := by
    have hx := hmin e0 (by rw [mem_sortStable]; exact he0)
    rw [pathLt, he0p] at hx
    exact hx
  have hm_ws : m ∈ diffs.foldl applyDiff (b :: bs) := by
    have hmf : m ∈ sortStable pathLt (sortStable depthPathLt (diffs.foldl applyDiff (b :: bs))) := by
      rw [hcons]
      exact List.mem_cons_self m tl
    rw [mem_sortStable, mem_sortStable] at hmf
    exact hmf
  have h2 : strLt m.path (extractResourceType doc.baseDefinition) = false := hlow m hm_ws
  refine ⟨_, m, tl, generateSnapshotDash_ok lookup doc diffs b bs hdiff hlk hb, ?_, strLt_connex h2 h1⟩
  simp only [hcons]

/-- C4 witness: the Patient fixtures satisfy the added hypotheses and the
first snapshot element is the Patient root. -/
theorem c4_first_element_path_witness :
    (∃ e ∈ [deepDiffEl].foldl applyDiff [basePatientEl, basePatientNameEl],
      e.path = extractResourceType docDeep.baseDefinition) ∧
    (∃ r m tl, generateSnapshotDash lookupPatient docDeep = .ok r ∧
      r.snapshot = some (m :: tl) ∧
      m.path = extractResourceType docDeep.baseDefinition) :=
  ⟨by decide,
    c4_first_element_path lookupPatient docDeep [deepDiffEl] basePatientEl [basePatientNameEl]
      (by decide) (by decide) (by decide) (by decide) (by decide) (by decide)⟩

/-- C5: with a differential present, the dash generator fails with the
not-found error carrying the extracted resource type name exactly when the
retrieved base element sequence is empty or the path of its first element
differs from the resource type name, and every error it can produce at that
point is that error. -/
theorem c5_retrieval_error (lookup : String → List ElementDefinition)
    (doc : StructureDefinition) (diffs : List ElementDefinition)
    (hdiff : doc.differential = some diffs) :
    (generateSnapshotDash lookup doc =
        .error (.baseDefinitionNotFound (extractResourceType doc.baseDefinition)) ↔
      (lookup (extractResourceType doc.baseDefinition) = [] ∨
        ∃ b bs, lookup (extractResourceType doc.baseDefinition) = b :: bs ∧
          ¬ b.path = extractResourceType doc.baseDefinition)) ∧
    (∀ e, generateSnapshotDash lookup doc = .error e →
      e = .baseDefinitionNotFound (extractResourceType doc.baseDefinition)) := by
  cases hlk : lookup (extractResourceType doc.baseDefinition) with
  | nil =>
    have hgen := generateSnapshotDash_err_nil lookup doc diffs hdiff hlk
    constructor
    · exact ⟨fun _ => Or.inl rfl, fun _ => hgen⟩
    · intro e he
      rw [hgen] at he
      exact (Except.error.inj he).symm
  | cons b bs =>
    by_cases hb : b.path = extractResourceType doc.baseDefinition
    · have hgen := generateSnapshotDash_ok lookup doc diffs b bs hdiff hlk hb
      constructor
      · constructor
        · intro he
          rw [hgen] at he
          exact absurd he (by simp)
        · intro hcase
          rcases hcase with hnil | ⟨b2, bs2, hcons, hb2⟩
          · cases hnil
          · cases hcons
            exact absurd hb hb2
      · intro e he
        rw [hgen] at he
        exact absurd he (by simp)
    · have hgen := generateSnapshotDash_err_path lookup doc diffs b bs hdiff hlk hb
      constructor
      · exact ⟨fun _ => Or.inr ⟨b, bs, rfl, hb⟩, fun _ => hgen⟩
      · intro e he
        rw [hgen] at he
        exact (Except.error.inj he).symm

/-- C5 witness: an empty repository answer for the Patient document. -/
theorem c5_retrieval_error_witness :
    docDeep.differential = some [deepDiffEl] ∧
    ((generateSnapshotDash lookupEmpty docDeep =
        .error (.baseDefinitionNotFound (extractResourceType docDeep.baseDefinition)) ↔
      (lookupEmpty (extractResourceType docDeep.baseDefinition) = [] ∨
        ∃ b bs, lookupEmpty (extractResourceType docDeep.baseDefinition) = b :: bs ∧
          ¬ b.path = extractResourceType docDeep.baseDefinition)) ∧
    (∀ e, generateSnapshotDash lookupEmpty docDeep = .error e →
      e = .baseDefinitionNotFound (extractResourceType docDeep.baseDefinition))) :=
  ⟨rfl, c5_retrieval_error lookupEmpty docDeep [deepDiffEl] rfl⟩

/-- C6: a document without differential elements fails with the
missing-differential error and performs zero repository lookups: the traced
run returns the error together with an empty list of lookup-call arguments,
for every lookup function. -/
theorem c6_missing_differential (lookup : String → List ElementDefinition)
    (doc : StructureDefinition) (hdiff : doc.differential = none) :
    generateSnapshotDashT lookup doc = (.error .missingDifferential, []) := by
  unfold generateSnapshotDashT
  rw [hdiff]

/-- C6 witness: the Patient document with its differential removed. -/
theorem c6_missing_differential_witness :
    docNoDiff.differential = none ∧
    generateSnapshotDashT lookupPatient docNoDiff = (.error .missingDifferential, []) :=
  ⟨rfl, c6_missing_differential lookupPatient docNoDiff rfl⟩

/-- C7: a differential element matching no working-list element (neither by
the id rule nor by the path rule) is synthesized: the working list is
extended at its end by a copy of the element, and the copy receives
`base = {path, min ?? 0, max ?? "*"}` exactly when it carries no base of
its own. -/
theorem c7_synthesis (ws : List ElementDefinition) (d : ElementDefinition)
    (hid : ws.find? (idMatch d) = none)
    (hpath : ws.find? (pathMatch d) = none) :
    applyDiff ws d = ws ++ [synthesizeElement d] ∧
    (d.base = none →
      (synthesizeElement d) = { d with base := some ⟨d.path, d.min.getD 0, d.max.getD "*"⟩ }) ∧
    (∀ bb, d.base = some bb → synthesizeElement d = d) := by
  refine ⟨?_, ?_, ?_⟩
  · unfold applyDiff
    rw [updateFirst_eq_none_of_find? _ _ ws hid]
    rw [updateFirst_eq_none_of_find? _ _ ws hpath]
  · intro hb
    unfold synthesizeElement
    rw [hb]
    rfl
  · intro bb hb
    unfold synthesizeElement
    rw [hb]
    rfl

/-- C7 witness: the deep differential element against the Patient root. -/
theorem c7_synthesis_witness :
    [basePatientEl].find? (idMatch deepDiffEl) = none ∧
    [basePatientEl].find? (pathMatch deepDiffEl) = none ∧
    (applyDiff [basePatientEl] deepDiffEl = [basePatientEl] ++ [synthesizeElement deepDiffEl] ∧
    (deepDiffEl.base = none →
      (synthesizeElement deepDiffEl) = { deepDiffEl with base := some ⟨deepDiffEl.path, deepDiffEl.min.getD 0, deepDiffEl.max.getD "*"⟩ }) ∧
    (∀ bb, deepDiffEl.base = some bb → synthesizeElement deepDiffEl = deepDiffEl)) :=
  ⟨by decide, by decide, c7_synthesis [basePatientEl] deepDiffEl (by decide) (by decide)⟩

/-- C8: on success the dash generator returns a shallow copy of the input
document in which `differential` is absent, `snapshot` holds the sorted
working list, and every other field is unchanged. -/
theorem c8_document_assembly (lookup : String → List ElementDefinition)
    (doc : StructureDefinition) (diffs : List ElementDefinition)
    (r : StructureDefinition)
    (hdiff : doc.differential = some diffs)
    (hr : generateSnapshotDash lookup doc = .ok r) :
    r.differential = none ∧
    r.snapshot = some (sortStable pathLt (sortStable depthPathLt
      (diffs.foldl applyDiff (lookup (extractResourceType doc.baseDefinition))))) ∧
    r.resourceType = doc.resourceType ∧ r.id = doc.id ∧ r.url = doc.url ∧
    r.name = doc.name ∧ r.title = doc.title ∧ r.status = doc.status ∧
    r.description = doc.description ∧ r.baseDefinition = doc.baseDefinition ∧
    r.derivation = doc.derivation := by
  cases hlk : lookup (extractResourceType doc.baseDefinition) with
  | nil =>
    rw [generateSnapshotDash_err_nil lookup doc diffs hdiff hlk] at hr
    exact absurd hr (by simp)
  | cons b bs =>
    by_cases hb : b.path = extractResourceType doc.baseDefinition
    · rw [generateSnapshotDash_ok lookup doc diffs b bs hdiff hlk hb] at hr
      have hr2 := Except.ok.inj hr
      subst hr2
      refine ⟨rfl, rfl, rfl, rfl, rfl, rfl, rfl, rfl, rfl, rfl, rfl⟩
    · rw [generateSnapshotDash_err_path lookup doc diffs b bs hdiff hlk hb] at hr
      exact absurd hr (by simp)

/-- C8 witness: the Patient fixture run, with its concrete output document. -/
theorem c8_document_assembly_witness :
    docDeep.differential = some [deepDiffEl] ∧
    generateSnapshotDash lookupPatient docDeep = .ok dashResultDeep ∧
    (dashResultDeep.differential = none ∧
    dashResultDeep.snapshot = some (sortStable pathLt (sortStable depthPathLt
      ([deepDiffEl].foldl applyDiff (lookupPatient (extractResourceType docDeep.baseDefinition))))) ∧
    dashResultDeep.resourceType = docDeep.resourceType ∧ dashResultDeep.id = docDeep.id ∧
    dashResultDeep.url = docDeep.url ∧ dashResultDeep.name = docDeep.name ∧
    dashResultDeep.title = docDeep.title ∧ dashResultDeep.status = docDeep.status ∧
    dashResultDeep.description = docDeep.description ∧
    dashResultDeep.baseDefinition = docDeep.baseDefinition ∧
    dashResultDeep.derivation = docDeep.derivation) :=
  ⟨rfl, by decide,
    c8_document_assembly lookupPatient docDeep [deepDiffEl] dashResultDeep rfl (by decide)⟩

/-- C9 counterexample: the two generator variants disagree on the Patient
fixture with a synthesized depth-3 element, because only the dash variant
re-sorts the snapshot purely by path. -/
theorem c9_counterexample :
    generateSnapshotDash lookupPatient docDeep ≠ generateSnapshotCamel lookupPatient docDeep := by
  decide

/-- C9 amended: for every input and repository, the dash variant returns
exactly the camel variant result with its snapshot element list re-sorted
(stably) by plain path order; in particular the two variants agree on
errors, on every document field, and on the multiset of snapshot elements,
and they return identical documents exactly when that re-sort fixes the
camel order. -/
theorem c9_variants_refine (lookup : String → List ElementDefinition)
    (doc : StructureDefinition) :
    generateSnapshotDash lookup doc = resortByPath (generateSnapshotCamel lookup doc) := by
  cases hdiff : doc.differential with
  | none =>
    have hdash : generateSnapshotDashT lookup doc = (.error .missingDifferential, []) := by
      unfold generateSnapshotDashT
      rw [hdiff]
    have hcamel := generateSnapshotCamel_none lookup doc hdiff
    rw [generateSnapshotDash, hdash, hcamel]
    rfl
  | some diffs =>
    cases hlk : lookup (extractResourceType doc.baseDefinition) with
    | nil =>
      rw [generateSnapshotDash_err_nil lookup doc diffs hdiff hlk,
        generateSnapshotCamel_err_nil lookup doc diffs hdiff hlk]
      rfl
    | cons b bs =>
      by_cases hb : b.path = extractResourceType doc.baseDefinition
      · rw [generateSnapshotDash_ok lookup doc diffs b bs hdiff hlk hb,
          generateSnapshotCamel_ok lookup doc diffs b bs hdiff hlk hb]
        rfl
      · rw [generateSnapshotDash_err_path lookup doc diffs b bs hdiff hlk hb,
          generateSnapshotCamel_err_path lookup doc diffs b bs hdiff hlk hb]
        rfl

/-- C10: both generators are deterministic: structurally identical input
documents processed with identical repository lookups produce identical
results — the embedding is a pure function and the source performs no
clock, randomness or other hidden-state reads. -/
theorem c10_deterministic (lookup1 lookup2 : String → List ElementDefinition)
    (doc1 doc2 : StructureDefinition)
    (hl : lookup1 = lookup2) (hd : doc1 = doc2) :
    generateSnapshotDash lookup1 doc1 = generateSnapshotDash lookup2 doc2 ∧
    generateSnapshotCamel lookup1 doc1 = generateSnapshotCamel lookup2 doc2 := by
  subst hl
  subst hd
  exact ⟨rfl, rfl⟩

/-- C10 witness: the Patient fixture compared with itself. -/
theorem c10_deterministic_witness :
    generateSnapshotDash lookupPatient docDeep = generateSnapshotDash lookupPatient docDeep ∧
    generateSnapshotCamel lookupPatient docDeep = generateSnapshotCamel lookupPatient docDeep :=
  c10_deterministic lookupPatient lookupPatient docDeep docDeep rfl rfl
